import Mathlib

/-
Verification development for the task-manager repository.

The definitions below are a shallow embedding of the Python sources:
  - src/task_manager/core/task.py            (Task, TaskStatus, TaskPriority,
                                              TaskCategory, ProjectFolder)
  - src/task_manager/core/task_manager.py    (TaskManager)
  - src/task_manager/core/project_manager.py (ProjectManager)
  - src/task_manager/web/app.py              (delete_project route)
  - src/task_manager/integrations/google_tasks_integration.py
                                             (GoogleTasksIntegration)

Modelling conventions:
  - timestamps are natural numbers; the current time is passed explicitly
    where the Python calls datetime.now();
  - uuid4 generation is modelled by an explicit fresh-id counter in the
    store state (the store dictionary semantics of `self.tasks[task.id] =
    task` is kept: replace when the id is present, append otherwise);
  - Python dicts keyed by strings are association lists with dict
    insertion/update semantics (update in place, append new keys);
  - `metadata` values are `Option String` (a stored None is `none`), and
    `metadata.get(k)` flattens a missing key and a stored None to `none`,
    as Python's dict.get does;
  - dateutil.parser.parse is an external library and is passed in as an
    abstract `parse : String → Option Nat` (none = raised exception);
  - the remote Google Tasks service item is the GTask record; network
    calls themselves are external collaborators and are not modelled,
    only the local state transitions the integration code performs.
-/

namespace TM

/-- TaskStatus enum from core/task.py. -/
inductive TaskStatus where
  | pending
  | in_progress
  | completed
  | cancelled
deriving DecidableEq, Repr

/-- The .value string of a TaskStatus member. -/
def TaskStatus.value : TaskStatus → String
  | .pending => "pending"
  | .in_progress => "in_progress"
  | .completed => "completed"
  | .cancelled => "cancelled"

/-- TaskPriority enum from core/task.py. -/
inductive TaskPriority where
  | low
  | medium
  | high
  | urgent
deriving DecidableEq, Repr

/-- The .value string of a TaskPriority member. -/
def TaskPriority.value : TaskPriority → String
  | .low => "low"
  | .medium => "medium"
  | .high => "high"
  | .urgent => "urgent"

/-- TaskCategory enum from core/task.py. -/
inductive TaskCategory where
  | personal
  | work
deriving DecidableEq, Repr

/-- The .value string of a TaskCategory member. -/
def TaskCategory.value : TaskCategory → String
  | .personal => "personal"
  | .work => "work"

/-- Task entity from core/task.py (pydantic model). Timestamps are Nat. -/
structure Task where
  id : String
  title : String
  description : Option String := none
  status : TaskStatus := .pending
  priority : TaskPriority := .medium
  category : TaskCategory := .personal
  project : Option String := none
  project_id : Option String := none
  created_at : Nat
  updated_at : Nat
  due_date : Option Nat := none
  tags : List String := []
  metadata : List (String × Option String) := []
deriving DecidableEq, Repr

/-- ProjectFolder entity from core/task.py. -/
structure ProjectFolder where
  id : String
  name : String
  category : TaskCategory
  description : Option String := none
  created_at : Nat := 0
deriving DecidableEq, Repr

/-- Python dict.get over the metadata mapping: a missing key and a stored
None both give none. -/
def metaGet (md : List (String × Option String)) (k : String) : Option String :=
  match md.find? (fun kv => kv.1 == k) with
  | some kv => kv.2
  | none => none

/-- Python truthiness of an optional string: None and the empty string are
falsy. -/
def pyTruthy : Option String → Bool
  | none => false
  | some s => !s.isEmpty

/-- The in-memory TaskManager store: the tasks dict, the snapshot last
written by save_tasks, and the fresh-id counter standing in for uuid4. -/
structure TMState where
  tasks : List Task
  persisted : List Task
  nextId : Nat
deriving DecidableEq, Repr

/-- Fresh id for a newly constructed Task (stands in for uuid4). -/
def freshId (n : Nat) : String := "local-" ++ toString n

/-- Dict-semantics insert of self.tasks[task.id] = task: replace the entry
with the same id if present, else append. -/
def upsertTask (ts : List Task) (t : Task) : List Task :=
  if ts.any (fun u => u.id == t.id) then
    ts.map (fun u => if u.id == t.id then t else u)
  else ts ++ [t]

/-- ProjectManager.get_project: dict lookup by project id. -/
def get_project (pm : List ProjectFolder) (pid : String) : Option ProjectFolder :=
  pm.find? (fun p => p.id == pid)

/-- ProjectManager.get_project_by_name: first project whose name matches
and (when a category is given) whose category matches. -/
def get_project_by_name (pm : List ProjectFolder) (name : String)
    (category : Option TaskCategory) : Option ProjectFolder :=
  pm.find? (fun p =>
    p.name == name &&
      (match category with
       | none => true
       | some c => p.category == c))

/-- ProjectManager.create_project: constructs the folder and stores it
under its id (dict semantics). The uuid is passed in as pid. -/
def create_project (pm : List ProjectFolder) (now : Nat) (pid : String)
    (name : String) (category : TaskCategory) (description : Option String) :
    ProjectFolder × List ProjectFolder :=
  let p : ProjectFolder :=
    { id := pid, name := name, category := category,
      description := description, created_at := now }
  let pm2 :=
    if pm.any (fun q => q.id == pid) then
      pm.map (fun q => if q.id == pid then p else q)
    else pm ++ [p]
  (p, pm2)

/-- ProjectManager.delete_project: del self.projects[project_id] when the
id is present, returning whether it was found. -/
def pm_delete_project (pm : List ProjectFolder) (pid : String) :
    Bool × List ProjectFolder :=
  if pm.any (fun p => p.id == pid) then
    (true, pm.filter (fun p => !(p.id == pid)))
  else (false, pm)

/-- TaskManager.create_task. When project_id is truthy and project is
falsy, the project name is backfilled from the resolved ProjectFolder
(left unchanged when the id does not resolve). The new task is stored and
save_tasks runs (persisted := tasks). -/
def create_task (now : Nat) (pm : List ProjectFolder) (st : TMState)
    (title : String) (description : Option String) (priority : TaskPriority)
    (category : TaskCategory) (project : Option String)
    (project_id : Option String) (due_date : Option Nat)
    (tags : List String) : Task × TMState :=
  let projectResolved :=
    if pyTruthy project_id && !pyTruthy project then
      match project_id with
      | some pid =>
        match get_project pm pid with
        | some pf => some pf.name
        | none => project
      | none => project
    else project
  let t : Task :=
    { id := freshId st.nextId, title := title, description := description,
      status := .pending, priority := priority, category := category,
      project := projectResolved, project_id := project_id,
      created_at := now, updated_at := now, due_date := due_date,
      tags := tags, metadata := [] }
  let tasks2 := upsertTask st.tasks t
  (t, { tasks := tasks2, persisted := tasks2, nextId := st.nextId + 1 })

/-- Task.update_status: sets the status and bumps updated_at to now. -/
def Task.update_status (t : Task) (status : TaskStatus) (now : Nat) : Task :=
  { t with status := status, updated_at := now }

/-- TaskManager.update_task_status: when the id is in the dict, mutate that
task via Task.update_status and save; otherwise return False untouched. -/
def update_task_status (now : Nat) (st : TMState) (tid : String)
    (status : TaskStatus) : Bool × TMState :=
  if st.tasks.any (fun t => t.id == tid) then
    let tasks2 := st.tasks.map (fun t =>
      if t.id == tid then t.update_status status now else t)
    (true, { st with tasks := tasks2, persisted := tasks2 })
  else (false, st)

/-- TaskManager.get_overdue_tasks: tasks with a (truthy) due_date strictly
before now whose status is not COMPLETED. -/
def get_overdue_tasks (now : Nat) (tasks : List Task) : List Task :=
  tasks.filter (fun t =>
    match t.due_date with
    | some d => decide (d < now) && !(t.status == TaskStatus.completed)
    | none => false)

/-- TaskManager.get_all_projects: the distinct truthy legacy project names
of the stored tasks (the source sorts the resulting list; ordering does
not affect any property below, the collection of distinct names does). -/
def get_all_projects (tasks : List Task) : List String :=
  tasks.foldl (fun acc t =>
    match t.project with
    | some p => if !p.isEmpty && !acc.contains p then acc ++ [p] else acc
    | none => acc) []

/-- The counter dicts of get_statistics: counts[key] = counts.get(key,0)+1
with dict semantics. -/
def bump (l : List (String × Nat)) (k : String) : List (String × Nat) :=
  if l.any (fun kv => kv.1 == k) then
    l.map (fun kv => if kv.1 == k then (kv.1, kv.2 + 1) else kv)
  else l ++ [(k, 1)]

/-- The result dict of TaskManager.get_statistics. The overdue and
total_projects keys are absent from the dict on the empty-store early
return, hence Option. -/
structure Stats where
  total : Nat
  by_status : List (String × Nat)
  by_priority : List (String × Nat)
  by_category : List (String × Nat)
  by_project : List (String × Nat)
  overdue : Option Nat
  total_projects : Option Nat
deriving DecidableEq, Repr

/-- TaskManager.get_statistics. -/
def get_statistics (now : Nat) (tasks : List Task) : Stats :=
  if tasks.length = 0 then
    { total := 0, by_status := [], by_priority := [], by_category := [],
      by_project := [], overdue := none, total_projects := none }
  else
    { total := tasks.length,
      by_status := tasks.foldl (fun l t => bump l t.status.value) [],
      by_priority := tasks.foldl (fun l t => bump l t.priority.value) [],
      by_category := tasks.foldl (fun l t => bump l t.category.value) [],
      by_project := tasks.foldl (fun l t =>
        match t.project with
        | some p => if p.isEmpty then l else bump l p
        | none => l) [],
      overdue := some (get_overdue_tasks now tasks).length,
      total_projects := some (get_all_projects tasks).length }

/-- One bucket of the hierarchical structure: the project-metadata dict
plus the list of tasks resolved into it. -/
structure Bucket where
  proj_id : Option String
  proj_name : String
  proj_category : String
  proj_description : Option String
  tasks : List Task
deriving DecidableEq, Repr

/-- The two top-level keys of get_hierarchical_tasks, each a dict from
project display-name to its bucket (association list with dict
semantics). -/
structure HierStructure where
  work : List (String × Bucket)
  personal : List (String × Bucket)
deriving DecidableEq, Repr

/-- Dict membership test on a bucket mapping. -/
def alContains (l : List (String × Bucket)) (k : String) : Bool :=
  l.any (fun kv => kv.1 == k)

/-- Dict assignment structure[k] = b: replace in place or append. -/
def alSet (l : List (String × Bucket)) (k : String) (b : Bucket) :
    List (String × Bucket) :=
  if alContains l k then
    l.map (fun kv => if kv.1 == k then (kv.1, b) else kv)
  else l ++ [(k, b)]

/-- structure[k]["tasks"].append(t): appends t to the tasks of the bucket
stored under k (no-op when k is absent, which never happens on the
reachable states: the General bucket is ensured before distribution). -/
def alAppendTask (l : List (String × Bucket)) (k : String) (t : Task) :
    List (String × Bucket) :=
  l.map (fun kv =>
    if kv.1 == k then (kv.1, { kv.2 with tasks := kv.2.tasks ++ [t] }) else kv)

/-- The bucket dict entry built from a real ProjectFolder. -/
def projBucket (p : ProjectFolder) : Bucket :=
  { proj_id := some p.id, proj_name := p.name,
    proj_category := p.category.value, proj_description := p.description,
    tasks := [] }

/-- The synthesized General bucket of a category. -/
def generalBucket (ckey : String) : Bucket :=
  { proj_id := none, proj_name := "General", proj_category := ckey,
    proj_description := some "Tasks without a specific project", tasks := [] }

/-- The synthesized legacy-project bucket. -/
def legacyBucket (pname ckey : String) : Bucket :=
  { proj_id := none, proj_name := pname, proj_category := ckey,
    proj_description := some "Legacy project", tasks := [] }

/-- ProjectManager.get_projects_by_category. -/
def get_projects_by_category (pm : List ProjectFolder) (c : TaskCategory) :
    List ProjectFolder :=
  pm.filter (fun p => p.category == c)

/-- The initialization loop of get_hierarchical_tasks: one empty bucket
per known project, keyed by project name (dict assignment). -/
def initBuckets (ps : List ProjectFolder) : List (String × Bucket) :=
  ps.foldl (fun l p => alSet l p.name (projBucket p)) []

/-- The add-General-if-absent step of get_hierarchical_tasks. -/
def ensureGeneral (l : List (String × Bucket)) (ckey : String) :
    List (String × Bucket) :=
  if alContains l "General" then l else l ++ [("General", generalBucket ckey)]

/-- Create-bucket-if-absent followed by appending the task, the shape of
both the resolved-project and the legacy-name branches of the
distribution loop. -/
def placeTask (l : List (String × Bucket)) (k : String) (b : Bucket)
    (t : Task) : List (String × Bucket) :=
  alAppendTask (if alContains l k then l else l ++ [(k, b)]) k t

/-- The per-task body of the distribution loop of get_hierarchical_tasks,
acting on the bucket dict selected by the task's own category (ckey is
that category's key string, used for synthesized legacy buckets). -/
def distributeIntoList (pm : List ProjectFolder) (ckey : String)
    (l : List (String × Bucket)) (t : Task) : List (String × Bucket) :=
  if pyTruthy t.project_id then
    match t.project_id with
    | some pid =>
      match get_project pm pid with
      | some p => placeTask l p.name (projBucket p) t
      | none => alAppendTask l "General" t
    | none => alAppendTask l "General" t
  else if pyTruthy t.project then
    match t.project with
    | some pname => placeTask l pname (legacyBucket pname ckey) t
    | none => alAppendTask l "General" t
  else alAppendTask l "General" t

/-- One distribution step: category_key = "work" if task.category == WORK
else "personal", then distribute into that side. -/
def distributeTask (pm : List ProjectFolder) (s : HierStructure) (t : Task) :
    HierStructure :=
  match t.category with
  | .work => { s with work := distributeIntoList pm "work" s.work t }
  | .personal => { s with personal := distributeIntoList pm "personal" s.personal t }

/-- TaskManager.get_hierarchical_tasks. -/
def get_hierarchical_tasks (pm : List ProjectFolder) (tasks : List Task) :
    HierStructure :=
  let w0 := ensureGeneral (initBuckets (get_projects_by_category pm .work)) "work"
  let p0 := ensureGeneral (initBuckets (get_projects_by_category pm .personal)) "personal"
  tasks.foldl (distributeTask pm) { work := w0, personal := p0 }

/-- The task list stored under key k of a bucket dict ([] when absent). -/
def bucketTasks (l : List (String × Bucket)) (k : String) : List Task :=
  match l.find? (fun kv => kv.1 == k) with
  | some kv => kv.2.tasks
  | none => []

/-- The task list of the bucket at (category, name) in the hierarchical
structure. -/
def hierBucketTasks (s : HierStructure) (c : TaskCategory) (k : String) :
    List Task :=
  match c with
  | .work => bucketTasks s.work k
  | .personal => bucketTasks s.personal k

/-- The delete_project route of web/app.py: 404 (none) when the project id
does not resolve; otherwise null out project_id and project on every task
referencing it, save when any task was affected, then delete the
project. -/
def delete_project_route (st : TMState) (pm : List ProjectFolder)
    (pid : String) : Option (TMState × List ProjectFolder) :=
  match get_project pm pid with
  | none => none
  | some _ =>
    let affected := st.tasks.filter (fun t => t.project_id == some pid)
    let tasks2 := st.tasks.map (fun t =>
      if t.project_id == some pid then
        { t with project_id := none, project := none }
      else t)
    let persisted2 := if affected.isEmpty then st.persisted else tasks2
    some ({ st with tasks := tasks2, persisted := persisted2 },
          (pm_delete_project pm pid).2)

/-- A remote Google Tasks item as returned by the provider. -/
structure GTask where
  id : Option String := none
  title : Option String := none
  notes : Option String := none
  status : Option String := none
  due : Option String := none
  updated : Option String := none
  parent : Option String := none
  position : Option String := none
deriving DecidableEq, Repr

/-- GoogleTasksIntegration._convert_google_task_to_task: unconditionally
creates a local task for the remote item (no dedup check of any kind),
then mutates the stored object: status update (bumping updated_at) and
the provenance metadata. The save ran inside create_task, before the
mutations, so persisted keeps the pre-mutation snapshot, as in the
source. -/
def convert_google_task_to_task (parse : String → Option Nat) (now : Nat)
    (pm : List ProjectFolder) (st : TMState) (g : GTask) : Task × TMState :=
  let title := g.title.getD "Untitled Task"
  let description := g.notes.getD ""
  let status : TaskStatus := if g.status == some "completed" then .completed else .pending
  let due_date : Option Nat :=
    match g.due with
    | some s => parse s
    | none => none
  let r := create_task now pm st title (some description) .medium .personal
    none none due_date ["google-tasks"]
  let t2 : Task :=
    { r.1 with
      status := status
      updated_at := now
      metadata := [("google_task_id", g.id), ("google_tasklist_id", g.parent),
                   ("google_updated", g.updated), ("google_position", g.position)] }
  (t2, { r.2 with tasks := r.2.tasks.map (fun u => if u.id == r.1.id then t2 else u) })

/-- One step of the loop in import_tasks_from_google: convert the remote
item and collect the created task. -/
def syncImportStep (parse : String → Option Nat) (now : Nat)
    (pm : List ProjectFolder) (a : TMState × List Task) (g : GTask) :
    TMState × List Task :=
  let r := convert_google_task_to_task parse now pm a.1 g
  (r.2, a.2 ++ [r.1])

/-- GoogleTasksIntegration.import_tasks_from_google, given the remote
items already fetched from the provider: converts every item,
accumulating the created local tasks. -/
def sync_import_tasks_from_google (parse : String → Option Nat) (now : Nat)
    (pm : List ProjectFolder) (st : TMState) (gtasks : List GTask) :
    TMState × List Task :=
  gtasks.foldl (syncImportStep parse now pm) (st, [])

/-- GoogleTasksIntegration._should_update_google_task: missing (or falsy)
google_updated metadata means stale (push); an unparseable value means
push; otherwise push only when updated_at is strictly newer. -/
def should_update_google_task (parse : String → Option Nat) (t : Task) : Bool :=
  match metaGet t.metadata "google_updated" with
  | none => true
  | some s =>
    if s.isEmpty then true
    else
      match parse s with
      | none => true
      | some gt => decide (gt < t.updated_at)

/-- The action sync_tasks_bidirectional takes for one local task in its
export/update loop. -/
inductive SyncAction where
  | exportNew
  | updateRemote
  | skip
deriving DecidableEq, Repr

/-- The per-task branch of sync_tasks_bidirectional: tasks without the
marker tag are exported as new; tasks with it are update-pushed exactly
when _should_update_google_task says so. -/
def sync_task_action (parse : String → Option Nat) (t : Task) : SyncAction :=
  if t.tags.contains "google-tasks" then
    if should_update_google_task parse t then .updateRemote else .skip
  else .exportNew

/- Sample data for the concrete scenarios of the claims below. -/

/-- Task A of the overdue example: Pending, Work, due at 50 (yesterday
relative to now = 100). -/
def c5taskA : Task :=
  { id := "a", title := "A", status := .pending, category := .work,
    due_date := some 50, created_at := 0, updated_at := 0 }

/-- Task B of the overdue example: Completed, due at 50. -/
def c5taskB : Task :=
  { id := "b", title := "B", status := .completed,
    due_date := some 50, created_at := 0, updated_at := 0 }

/-- Claim C5: get_overdue_tasks returns exactly the stored tasks that have
a due date strictly before now and are not Completed; in particular on
the A/B example it returns only A. -/
theorem c5_overdue_exactly :
    (∀ (now : Nat) (tasks : List Task) (t : Task),
        t ∈ get_overdue_tasks now tasks ↔
          t ∈ tasks ∧
            ∃ d, t.due_date = some d ∧ d < now ∧ t.status ≠ TaskStatus.completed) ∧
    get_overdue_tasks 100 [c5taskA, c5taskB] = [c5taskA] := by
  constructor
  · intro now tasks t
    rw [get_overdue_tasks, List.mem_filter]
    refine and_congr_right fun _ => ?_
    cases h : t.due_date with
    | none => simp [h]
    | some d => simp [h]
  · decide

/-- Claim C9 counterexample: on the empty store, get_statistics returns a
dict that omits the overdue and total_projects keys entirely (modelled as
none), so the result does not carry a zero overdue count or a zero
distinct-project-name count. -/
theorem c9_counterexample :
    ¬ ((get_statistics 0 ([] : List Task)).overdue = some 0 ∧
       (get_statistics 0 ([] : List Task)).total_projects = some 0) := by
  decide

/-- Claim C9 (amended): statistics on the empty store returns without
error the dict with total 0 and empty by-status/by-priority/by-category/
by-project count maps, with no overdue count and no distinct-project-name
count present at all. -/
theorem c9_empty_statistics (now : Nat) :
    get_statistics now [] =
      { total := 0, by_status := [], by_priority := [], by_category := [],
        by_project := [], overdue := none, total_projects := none } := rfl

/-- Claim C7: update_task_status returns False and changes nothing (store
and persisted snapshot both untouched) when the id is absent; when a
stored task has the id, it returns True, that task now has the given
status with updated_at bumped to now, every other task is kept, the store
size is unchanged and the new store is persisted. -/
theorem c7_update_task_status (now : Nat) (st : TMState) (tid : String)
    (status : TaskStatus) :
    ((∀ t ∈ st.tasks, t.id ≠ tid) →
        update_task_status now st tid status = (false, st)) ∧
    (∀ t, t ∈ st.tasks → t.id = tid →
        (update_task_status now st tid status).1 = true ∧
        { t with status := status, updated_at := now } ∈
          (update_task_status now st tid status).2.tasks ∧
        (∀ u ∈ st.tasks, u.id ≠ tid →
            u ∈ (update_task_status now st tid status).2.tasks) ∧
        (update_task_status now st tid status).2.persisted =
          (update_task_status now st tid status).2.tasks ∧
        (update_task_status now st tid status).2.tasks.length =
          st.tasks.length) := by
  constructor
  · intro h
    have hany : st.tasks.any (fun t => t.id == tid) = false := by
      rw [List.any_eq_false]
      intro t ht
      simp [h t ht]
    simp [update_task_status, hany]
  · intro t ht htid
    have hany : st.tasks.any (fun u => u.id == tid) = true := by
      rw [List.any_eq_true]
      exact ⟨t, ht, by simp [htid]⟩
    simp only [update_task_status, hany, if_true]
    refine ⟨trivial, ?_, ?_, trivial, by simp⟩
    · have heq : (fun u : Task => if u.id == tid then u.update_status status now else u) t
          = { t with status := status, updated_at := now } := by
        simp [Task.update_status, htid]
      rw [← heq]
      exact List.mem_map_of_mem _ ht
    · intro u hu hune
      have heq : (fun v : Task => if v.id == tid then v.update_status status now else v) u = u := by
        simp [hune]
      have hm := List.mem_map_of_mem
        (fun v : Task => if v.id == tid then v.update_status status now else v) hu
      rw [heq] at hm
      exact hm

/-- Sample store for the C7 witness. -/
def c7task : Task :=
  { id := "t1", title := "T", status := .pending, created_at := 0, updated_at := 0 }

/-- Sample store for the C7 witness. -/
def c7state : TMState := { tasks := [c7task], persisted := [c7task], nextId := 1 }

/-- Witness for C7 at a concrete store: a missing id changes nothing and
returns False; the present id returns True. -/
theorem c7_witness :
    update_task_status 9 c7state "missing" .completed = (false, c7state) ∧
    (update_task_status 9 c7state "t1" .completed).1 = true :=
  ⟨(c7_update_task_status 9 c7state "missing" .completed).1 (by decide),
   ((c7_update_task_status 9 c7state "t1" .completed).2 c7task (by decide)
     (by decide)).1⟩

/-- The Work "General" project of the C8 scenario, as created by
create_project on the empty project store. -/
def c8workGeneral : ProjectFolder :=
  (create_project [] 0 "pw" "General" .work none).1

/-- The project store after creating the Work "General" project. -/
def c8store1 : List ProjectFolder :=
  (create_project [] 0 "pw" "General" .work none).2

/-- The Personal "General" project of the C8 scenario, created on a store
that already holds the same-named Work project. -/
def c8personalGeneral : ProjectFolder :=
  (create_project c8store1 1 "pp" "General" .personal none).1

/-- The project store holding both same-named projects. -/
def c8store : List ProjectFolder :=
  (create_project c8store1 1 "pp" "General" .personal none).2

/-- Claim C8: a category-scoped name lookup only ever returns a project of
that category with that name; and two projects named General in different
categories coexist as distinct entities, each found by its own scoped
lookup. -/
theorem c8_name_scoped_by_category :
    (∀ (pm : List ProjectFolder) (name : String) (c : TaskCategory)
        (p : ProjectFolder),
        get_project_by_name pm name (some c) = some p →
          p.name = name ∧ p.category = c) ∧
    (c8workGeneral ∈ c8store ∧ c8personalGeneral ∈ c8store ∧
     c8workGeneral ≠ c8personalGeneral ∧
     get_project_by_name c8store "General" (some .work) = some c8workGeneral ∧
     get_project_by_name c8store "General" (some .personal) = some c8personalGeneral) := by
  constructor
  · intro pm name c p h
    have hp := List.find?_some h
    simp only [Bool.and_eq_true, beq_iff_eq] at hp
    exact ⟨hp.1, hp.2⟩
  · refine ⟨by decide, by decide, by decide, by decide, by decide⟩

/-- Witness for C8: the scoped-lookup characterization applied at the
concrete two-project store. -/
theorem c8_witness :
    c8workGeneral.name = "General" ∧ c8workGeneral.category = TaskCategory.work :=
  (c8_name_scoped_by_category).1 c8store "General" .work c8workGeneral (by decide)

/-- The project store of the C10 witness. -/
def c10pm : List ProjectFolder :=
  [{ id := "p1", name := "Alpha", category := .work, description := none,
     created_at := 0 }]

/-- The empty task store of the C10 witness. -/
def c10state : TMState := { tasks := [], persisted := [], nextId := 0 }

/-- Claim C10: create_task called with a (truthy) project_id and no legacy
project name backfills the legacy project field from the resolved
project's name when the id resolves; when it does not resolve, the task
is still created and stored with project left none and the dangling
project_id stored unchanged. -/
theorem c10_create_task_project_backfill (now : Nat) (pm : List ProjectFolder)
    (st : TMState) (title : String) (description : Option String)
    (priority : TaskPriority) (category : TaskCategory) (due : Option Nat)
    (tags : List String) (pid : String) (hpid : pid.isEmpty = false) :
    (∀ pf, get_project pm pid = some pf →
        (create_task now pm st title description priority category none
            (some pid) due tags).1.project = some pf.name ∧
        (create_task now pm st title description priority category none
            (some pid) due tags).1.project_id = some pid ∧
        (create_task now pm st title description priority category none
            (some pid) due tags).1 ∈
          (create_task now pm st title description priority category none
            (some pid) due tags).2.tasks) ∧
    (get_project pm pid = none →
        (create_task now pm st title description priority category none
            (some pid) due tags).1.project = none ∧
        (create_task now pm st title description priority category none
            (some pid) due tags).1.project_id = some pid ∧
        (create_task now pm st title description priority category none
            (some pid) due tags).1 ∈
          (create_task now pm st title description priority category none
            (some pid) due tags).2.tasks) := by
  have hmem : ∀ (ts : List Task) (t : Task), t ∈ upsertTask ts t := by
    intro ts t
    rw [upsertTask]
    by_cases h : ts.any (fun u => u.id == t.id) = true
    · rw [if_pos h]
      rw [List.any_eq_true] at h
      obtain ⟨u, hu, hid⟩ := h
      have := List.mem_map_of_mem (fun u : Task => if u.id == t.id then t else u) hu
      simpa [hid] using this
    · rw [if_neg h]
      simp
  constructor
  · intro pf hpf
    simp only [create_task, pyTruthy, hpid, hpf, Bool.not_false, Bool.and_self,
      if_true]
    exact ⟨trivial, trivial, hmem _ _⟩
  · intro hpf
    simp only [create_task, pyTruthy, hpid, hpf, Bool.not_false, Bool.and_self,
      if_true]
    exact ⟨trivial, trivial, hmem _ _⟩

/-- Witness for C10 at a concrete store: a resolving project_id backfills
the name Alpha; a dangling one leaves project none while keeping the
id. -/
theorem c10_witness :
    ((create_task 0 c10pm c10state "T" none .medium .personal none
        (some "p1") none []).1.project = some "Alpha" ∧
     (create_task 0 c10pm c10state "T" none .medium .personal none
        (some "p1") none []).1.project_id = some "p1") ∧
    ((create_task 0 c10pm c10state "T" none .medium .personal none
        (some "zz") none []).1.project = none ∧
     (create_task 0 c10pm c10state "T" none .medium .personal none
        (some "zz") none []).1.project_id = some "zz") := by
  have h1 := (c10_create_task_project_backfill 0 c10pm c10state "T" none
    .medium .personal none [] "p1" (by decide)).1
    ⟨"p1", "Alpha", .work, none, 0⟩ (by decide)
  have h2 := (c10_create_task_project_backfill 0 c10pm c10state "T" none
    .medium .personal none [] "zz" (by decide)).2 (by decide)
  exact ⟨⟨h1.1, h1.2.1⟩, ⟨h2.1, h2.2.1⟩⟩

/-- Claim C3: in the sync update phase, a local task carrying the marker
tag is update-pushed when its metadata has no google_updated timestamp;
and when the stored timestamp parses, it is update-pushed exactly when
the local updated_at is strictly newer than the parsed remote value. -/
theorem c3_update_staleness (parse : String → Option Nat) (t : Task)
    (htag : t.tags.contains "google-tasks" = true) :
    (metaGet t.metadata "google_updated" = none →
        sync_task_action parse t = SyncAction.updateRemote) ∧
    (∀ s ts, metaGet t.metadata "google_updated" = some s →
        s.isEmpty = false → parse s = some ts →
        (sync_task_action parse t = SyncAction.updateRemote ↔
          ts < t.updated_at)) := by
  have hm : "google-tasks" ∈ t.tags := by simpa using htag
  constructor
  · intro h
    simp [sync_task_action, hm, should_update_google_task, h]
  · intro s ts hmd hs hparse
    by_cases hlt : ts < t.updated_at
    · simp [sync_task_action, hm, should_update_google_task, hmd, hs,
        hparse, hlt]
    · simp [sync_task_action, hm, should_update_google_task, hmd, hs,
        hparse, hlt]

/-- The concrete task of the C3 witness: marker-tagged, updated_at 10,
remote timestamp parsing to 5. -/
def c3task : Task :=
  { id := "t", title := "T", created_at := 0, updated_at := 10,
    tags := ["google-tasks"], metadata := [("google_updated", some "ts5")] }

/-- The concrete parser of the C3 witness. -/
def c3parse : String → Option Nat := fun s => if s == "ts5" then some 5 else none

/-- Witness for C3: at the concrete task the local clock (10) is strictly
newer than the remote (5), so the action is an update push. -/
theorem c3_witness : sync_task_action c3parse c3task = SyncAction.updateRemote :=
  ((c3_update_staleness c3parse c3task (by decide)).2 "ts5" 5 (by decide)
    (by decide) (by decide)).mpr (by decide)

/-- The sum of the counter values of one statistics dict. -/
def sumVals (l : List (String × Nat)) : Nat := (l.map (fun kv => kv.2)).sum

lemma sumVals_cons (kv : String × Nat) (l : List (String × Nat)) :
    sumVals (kv :: l) = kv.2 + sumVals l := by
  simp [sumVals]

lemma sumVals_append (l1 l2 : List (String × Nat)) :
    sumVals (l1 ++ l2) = sumVals l1 + sumVals l2 := by
  simp [sumVals]

lemma mapIncr_id (k : String) :
    ∀ (l : List (String × Nat)), (∀ kv ∈ l, (kv.1 == k) = false) →
      l.map (fun kv => if kv.1 == k then (kv.1, kv.2 + 1) else kv) = l := by
  intro l
  induction l with
  | nil => intro _; rfl
  | cons hd tl ih =>
    intro h
    have hhd := h hd (by simp)
    rw [List.map_cons, if_neg (by simp [hhd]),
      ih (fun kv hkv => h kv (List.mem_cons_of_mem _ hkv))]

lemma sumVals_mapIncr (k : String) :
    ∀ (l : List (String × Nat)), (l.map Prod.fst).Nodup →
      l.any (fun kv => kv.1 == k) = true →
      sumVals (l.map (fun kv => if kv.1 == k then (kv.1, kv.2 + 1) else kv))
        = sumVals l + 1 := by
  intro l
  induction l with
  | nil => intro _ h; simp at h
  | cons hd tl ih =>
    intro hnd hany
    have hnd2 : (hd.1 :: tl.map Prod.fst).Nodup := by simpa using hnd
    by_cases hk : (hd.1 == k) = true
    · have hne : hd.1 ∉ tl.map Prod.fst := (List.nodup_cons.mp hnd2).1
      have htl : ∀ kv ∈ tl, (kv.1 == k) = false := by
        intro kv hkv
        have h1 : kv.1 ≠ hd.1 := by
          intro he
          exact hne (he ▸ List.mem_map_of_mem Prod.fst hkv)
        have h2 : hd.1 = k := by simpa using hk
        simp [h2 ▸ h1]
      rw [List.map_cons, if_pos hk, mapIncr_id k tl htl, sumVals_cons,
        sumVals_cons]
      omega
    · have hany2 : tl.any (fun kv => kv.1 == k) = true := by
        simp only [List.any_cons, Bool.or_eq_true] at hany
        rcases hany with h | h
        · exact absurd h hk
        · exact h
      rw [List.map_cons, if_neg hk, sumVals_cons, sumVals_cons,
        ih hnd2.of_cons hany2]
      omega

lemma sumVals_bump (l : List (String × Nat)) (k : String)
    (h : (l.map Prod.fst).Nodup) : sumVals (bump l k) = sumVals l + 1 := by
  rw [bump]
  by_cases hany : l.any (fun kv => kv.1 == k) = true
  · rw [if_pos hany]
    exact sumVals_mapIncr k l h hany
  · rw [if_neg hany, sumVals_append]
    simp [sumVals]

lemma bump_keys_nodup (l : List (String × Nat)) (k : String)
    (h : (l.map Prod.fst).Nodup) : ((bump l k).map Prod.fst).Nodup := by
  rw [bump]
  by_cases hany : l.any (fun kv => kv.1 == k) = true
  · rw [if_pos hany]
    have he : (l.map (fun kv => if kv.1 == k then (kv.1, kv.2 + 1) else kv)).map
        Prod.fst = l.map Prod.fst := by
      rw [List.map_map]
      apply List.map_congr_left
      intro kv _
      show (if kv.1 == k then (kv.1, kv.2 + 1) else kv).1 = kv.1
      split <;> rfl
    rw [he]
    exact h
  · rw [if_neg hany, List.map_append, List.nodup_append]
    refine ⟨h, by simp, ?_⟩
    intro a ha hak
    have hak2 : a = k := by simpa using hak
    subst hak2
    obtain ⟨kv, hkv, he⟩ := List.mem_map.mp ha
    apply hany
    rw [List.any_eq_true]
    exact ⟨kv, hkv, by simp [he]⟩

lemma sumVals_foldl_bump {α : Type} (f : α → String) :
    ∀ (ts : List α) (l : List (String × Nat)), (l.map Prod.fst).Nodup →
      sumVals (ts.foldl (fun acc t => bump acc (f t)) l) = sumVals l + ts.length := by
  intro ts
  induction ts with
  | nil => intro l _; simp
  | cons hd tl ih =>
    intro l h
    rw [List.foldl_cons, ih (bump l (f hd)) (bump_keys_nodup l (f hd) h),
      sumVals_bump l (f hd) h, List.length_cons]
    omega

/-- Claim C6: on a non-empty store, the by-status counts of
get_statistics sum to the total, and so do the by-category counts. -/
theorem c6_statistics_sums (now : Nat) (tasks : List Task) (h : tasks ≠ []) :
    sumVals (get_statistics now tasks).by_status =
      (get_statistics now tasks).total ∧
    sumVals (get_statistics now tasks).by_category =
      (get_statistics now tasks).total := by
  have hlen : ¬ tasks.length = 0 := by simpa using h
  have e1 : (get_statistics now tasks).by_status =
      tasks.foldl (fun l t => bump l t.status.value) [] := by
    rw [get_statistics, if_neg hlen]
  have e2 : (get_statistics now tasks).by_category =
      tasks.foldl (fun l t => bump l t.category.value) [] := by
    rw [get_statistics, if_neg hlen]
  have e3 : (get_statistics now tasks).total = tasks.length := by
    rw [get_statistics, if_neg hlen]
  rw [e1, e2, e3]
  constructor
  · have := sumVals_foldl_bump (fun t : Task => t.status.value) tasks [] (by simp)
    simpa [sumVals] using this
  · have := sumVals_foldl_bump (fun t : Task => t.category.value) tasks [] (by simp)
    simpa [sumVals] using this

/-- The concrete task of the C6 witness. -/
def c6task : Task := { id := "x", title := "X", created_at := 0, updated_at := 0 }

/-- Witness for C6 at a concrete one-task store. -/
theorem c6_witness :
    sumVals (get_statistics 0 [c6task]).by_status =
      (get_statistics 0 [c6task]).total ∧
    sumVals (get_statistics 0 [c6task]).by_category =
      (get_statistics 0 [c6task]).total :=
  c6_statistics_sums 0 [c6task] (by decide)

/-- Claim C4: when the project id resolves, the delete_project route does
not 404, keeps the store the same size, nulls project_id and project on
exactly the tasks that referenced the project (position by position,
every other field untouched) while leaving every non-referencing task
byte-for-byte unchanged, leaves no task referencing the deleted id, and
removes the project from the project store. -/
theorem c4_delete_project_cascade (st : TMState) (pm : List ProjectFolder)
    (pid : String) (p : ProjectFolder) (hp : get_project pm pid = some p) :
    delete_project_route st pm pid ≠ none ∧
    ∀ st2 pm2, delete_project_route st pm pid = some (st2, pm2) →
      st2.tasks.length = st.tasks.length ∧
      (∀ (i : Nat) (t : Task), st.tasks[i]? = some t →
          (t.project_id = some pid →
              st2.tasks[i]? = some { t with project_id := none, project := none }) ∧
          (t.project_id ≠ some pid → st2.tasks[i]? = some t)) ∧
      (∀ t ∈ st2.tasks, t.project_id ≠ some pid) ∧
      get_project pm2 pid = none := by
  have hroute : delete_project_route st pm pid =
      some ({ st with
              tasks := st.tasks.map (fun t =>
                if t.project_id == some pid then
                  { t with project_id := none, project := none }
                else t)
              persisted :=
                if (st.tasks.filter (fun t => t.project_id == some pid)).isEmpty
                then st.persisted
                else st.tasks.map (fun t =>
                  if t.project_id == some pid then
                    { t with project_id := none, project := none }
                  else t) },
            (pm_delete_project pm pid).2) := by
    rw [delete_project_route, hp]
  constructor
  · rw [hroute]
    simp
  · intro st2 pm2 heq
    rw [hroute] at heq
    have hst2 : st2.tasks = st.tasks.map (fun t =>
        if t.project_id == some pid then
          { t with project_id := none, project := none }
        else t) := by
      have := congrArg (fun r : TMState × List ProjectFolder => r.1.tasks)
        (Option.some.inj heq)
      simpa using this.symm
    have hpm2 : pm2 = (pm_delete_project pm pid).2 := by
      have := congrArg (fun r : TMState × List ProjectFolder => r.2)
        (Option.some.inj heq)
      simpa using this.symm
    refine ⟨by rw [hst2]; simp, ?_, ?_, ?_⟩
    · intro i t hti
      have hmap : st2.tasks[i]? = (st.tasks[i]?).map (fun t =>
          if t.project_id == some pid then
            { t with project_id := none, project := none }
          else t) := by
        rw [hst2, List.getElem?_map]
      constructor
      · intro hpidEq
        rw [hmap, hti]
        simp [hpidEq]
      · intro hpidNe
        rw [hmap, hti]
        simp [hpidNe]
    · intro t ht
      rw [hst2] at ht
      obtain ⟨u, hu, he⟩ := List.mem_map.mp ht
      by_cases hc : u.project_id = some pid
      · rw [if_pos (by simp [hc])] at he
        rw [← he]
        simp
      · rw [if_neg (by simp [hc])] at he
        rw [← he]
        exact hc
    · rw [hpm2, pm_delete_project]
      have hpf : pm.find? (fun q => q.id == pid) = some p := hp
      have hpred := List.find?_some hpf
      have hanyp : pm.any (fun q => q.id == pid) = true := by
        rw [List.any_eq_true]
        exact ⟨p, List.mem_of_find?_eq_some hpf, hpred⟩
      rw [if_pos hanyp]
      simp only [get_project]
      rw [List.find?_eq_none]
      intro q hq
      have := (List.mem_filter.mp hq).2
      simp at this
      simp [this]

/-- The project of the C4 witness. -/
def c4proj : ProjectFolder :=
  { id := "p1", name := "Alpha", category := .work, description := none,
    created_at := 0 }

/-- The store of the C4 witness: two tasks referencing p1, one not. -/
def c4state : TMState :=
  { tasks :=
      [{ id := "t1", title := "A", project_id := some "p1",
         project := some "Alpha", created_at := 0, updated_at := 0 },
       { id := "t2", title := "B", project_id := some "p2",
         project := some "Beta", created_at := 0, updated_at := 0 },
       { id := "t3", title := "C", project_id := some "p1",
         project := some "Alpha", created_at := 0, updated_at := 0 }],
    persisted := [], nextId := 0 }

/-- Witness for C4 at the concrete store: the route does not 404 when the
project exists. -/
theorem c4_witness : delete_project_route c4state [c4proj] "p1" ≠ none :=
  (c4_delete_project_cascade c4state [c4proj] "p1" c4proj (by decide)).1

/-- The remote item of the C1 counterexample, matching the spec example
payload: id g1, title Buy milk, status needsAction. -/
def c1gtask : GTask :=
  { id := some "g1", title := some "Buy milk", status := some "needsAction" }

/-- The concrete date parser of the C1 counterexample (never consulted:
the item has no due date). -/
def c1parse : String → Option Nat := fun _ => none

/-- The empty local store of the C1 counterexample. -/
def c1state0 : TMState := { tasks := [], persisted := [], nextId := 0 }

/-- The store and created-task list after the first import run. -/
def c1run1 : TMState × List Task :=
  sync_import_tasks_from_google c1parse 100 [] c1state0 [c1gtask]

/-- The store and created-task list after the second import run against
the same unchanged remote item. -/
def c1run2 : TMState × List Task :=
  sync_import_tasks_from_google c1parse 100 [] c1run1.1 [c1gtask]

/-- Claim C1 counterexample: re-running the import phase against the same
unchanged single-item remote collection creates one more local task — the
store grows from one task to two, both carrying the same remote id g1 in
their metadata, so the matching remote item was re-created, not
skipped. -/
theorem c1_counterexample :
    c1run1.1.tasks.length = 1 ∧
    c1run2.2.length = 1 ∧
    c1run2.1.tasks.length = 2 ∧
    c1run2.1.tasks.map (fun t => metaGet t.metadata "google_task_id") =
      [some "g1", some "g1"] := by
  decide

lemma syncImportStep_list_length (parse : String → Option Nat) (now : Nat)
    (pm : List ProjectFolder) (a : TMState × List Task) (g : GTask) :
    (syncImportStep parse now pm a g).2.length = a.2.length + 1 := by
  simp [syncImportStep]

lemma sync_import_foldl_length (parse : String → Option Nat) (now : Nat)
    (pm : List ProjectFolder) :
    ∀ (gs : List GTask) (a : TMState × List Task),
      (gs.foldl (syncImportStep parse now pm) a).2.length =
        a.2.length + gs.length := by
  intro gs
  induction gs with
  | nil => intro a; simp
  | cons hd tl ih =>
    intro a
    rw [List.foldl_cons, ih (syncImportStep parse now pm a hd),
      syncImportStep_list_length, List.length_cons]
    omega

/-- Claim C1 (amended): the import phase performs no dedup whatsoever —
every run converts every remote item into a freshly created local task,
so a run over n remote items always reports n created tasks, whatever the
existing local store contains. -/
theorem c1_import_creates_every_item (parse : String → Option Nat)
    (now : Nat) (pm : List ProjectFolder) (st : TMState)
    (gtasks : List GTask) :
    (sync_import_tasks_from_google parse now pm st gtasks).2.length =
      gtasks.length := by
  rw [sync_import_tasks_from_google, sync_import_foldl_length]
  simp

lemma mem_bucketTasks_append (l ext : List (String × Bucket)) (k : String)
    (t2 : Task) (h : t2 ∈ bucketTasks l k) : t2 ∈ bucketTasks (l ++ ext) k := by
  rw [bucketTasks] at h ⊢
  cases hf : l.find? (fun kv => kv.1 == k) with
  | none => rw [hf] at h; simp at h
  | some kv =>
    rw [hf] at h
    rw [List.find?_append, hf]
    exact h

lemma find?_cons_bucket (hd : String × Bucket) (tl : List (String × Bucket))
    (k2 : String) :
    (hd :: tl).find? (fun kv => kv.1 == k2) =
      if hd.1 == k2 then some hd else tl.find? (fun kv => kv.1 == k2) := by
  by_cases h : (hd.1 == k2) = true
  · rw [if_pos h]
    exact List.find?_cons_of_pos _ h
  · rw [if_neg h]
    exact List.find?_cons_of_neg _ (by simpa using h)

lemma find?_alAppendTask (l : List (String × Bucket)) (k : String) (t : Task)
    (k2 : String) :
    (alAppendTask l k t).find? (fun kv => kv.1 == k2) =
      (l.find? (fun kv => kv.1 == k2)).map (fun kv =>
        if kv.1 == k then (kv.1, { kv.2 with tasks := kv.2.tasks ++ [t] })
        else kv) := by
  induction l with
  | nil => rfl
  | cons hd tl ih =>
    rw [alAppendTask, List.map_cons]
    have hkey : ((if hd.1 == k then
        (hd.1, { hd.2 with tasks := hd.2.tasks ++ [t] }) else hd)).1 = hd.1 := by
      split <;> rfl
    rw [find?_cons_bucket, find?_cons_bucket, hkey]
    by_cases h2 : (hd.1 == k2) = true
    · rw [if_pos h2, if_pos h2]
      rfl
    · rw [if_neg h2, if_neg h2]
      exact ih

lemma mem_bucketTasks_alAppendTask (l : List (String × Bucket)) (k : String)
    (t : Task) (k2 : String) (t2 : Task) (h : t2 ∈ bucketTasks l k2) :
    t2 ∈ bucketTasks (alAppendTask l k t) k2 := by
  rw [bucketTasks] at h ⊢
  rw [find?_alAppendTask]
  cases hf : l.find? (fun kv => kv.1 == k2) with
  | none => rw [hf] at h; simp at h
  | some kv =>
    rw [hf] at h
    show t2 ∈ (if kv.1 == k then
      (kv.1, { kv.2 with tasks := kv.2.tasks ++ [t] }) else kv).2.tasks
    split
    · exact List.mem_append_left _ h
    · exact h

lemma bucketTasks_alAppendTask_self (l : List (String × Bucket)) (k : String)
    (t : Task) (h : alContains l k = true) :
    bucketTasks (alAppendTask l k t) k = bucketTasks l k ++ [t] := by
  have hf : ∃ kv, l.find? (fun kv => kv.1 == k) = some kv := by
    cases hfind : l.find? (fun kv => kv.1 == k) with
    | some kv => exact ⟨kv, rfl⟩
    | none =>
      exfalso
      rw [alContains, List.any_eq_true] at h
      obtain ⟨kv, hkv, hpred⟩ := h
      have := List.find?_eq_none.mp hfind kv hkv
      exact this hpred
  obtain ⟨kv, hfv⟩ := hf
  have hk := List.find?_some hfv
  rw [bucketTasks, bucketTasks, find?_alAppendTask, hfv]
  show (if kv.1 == k then
    (kv.1, { kv.2 with tasks := kv.2.tasks ++ [t] }) else kv).2.tasks =
    kv.2.tasks ++ [t]
  rw [if_pos hk]

lemma mem_bucketTasks_placeTask_self (l : List (String × Bucket)) (k : String)
    (b : Bucket) (t : Task) : t ∈ bucketTasks (placeTask l k b t) k := by
  rw [placeTask]
  by_cases hc : alContains l k = true
  · rw [if_pos hc, bucketTasks_alAppendTask_self l k t hc]
    simp
  · rw [if_neg hc]
    have hc2 : alContains (l ++ [(k, b)]) k = true := by
      simp [alContains, List.any_append]
    rw [bucketTasks_alAppendTask_self _ k t hc2]
    simp

lemma mem_bucketTasks_placeTask_mono (l : List (String × Bucket)) (k : String)
    (b : Bucket) (t : Task) (k2 : String) (t2 : Task)
    (h : t2 ∈ bucketTasks l k2) : t2 ∈ bucketTasks (placeTask l k b t) k2 := by
  rw [placeTask]
  by_cases hc : alContains l k = true
  · rw [if_pos hc]
    exact mem_bucketTasks_alAppendTask _ _ _ _ _ h
  · rw [if_neg hc]
    exact mem_bucketTasks_alAppendTask _ _ _ _ _
      (mem_bucketTasks_append _ _ _ _ h)

lemma mem_distributeIntoList_mono (pm : List ProjectFolder) (ckey : String)
    (l : List (String × Bucket)) (u : Task) (k2 : String) (t2 : Task)
    (h : t2 ∈ bucketTasks l k2) :
    t2 ∈ bucketTasks (distributeIntoList pm ckey l u) k2 := by
  rw [distributeIntoList]
  by_cases h1 : pyTruthy u.project_id = true
  · rw [if_pos h1]
    cases hpid : u.project_id with
    | none => exact mem_bucketTasks_alAppendTask l "General" u k2 t2 h
    | some pid =>
      show t2 ∈ bucketTasks
        (match get_project pm pid with
         | some q => placeTask l q.name (projBucket q) u
         | none => alAppendTask l "General" u) k2
      cases hg : get_project pm pid with
      | none => exact mem_bucketTasks_alAppendTask l "General" u k2 t2 h
      | some q =>
        exact mem_bucketTasks_placeTask_mono l q.name (projBucket q) u k2 t2 h
  · rw [if_neg h1]
    by_cases h2 : pyTruthy u.project = true
    · rw [if_pos h2]
      cases hpn : u.project with
      | none => exact mem_bucketTasks_alAppendTask l "General" u k2 t2 h
      | some pname =>
        exact mem_bucketTasks_placeTask_mono l pname (legacyBucket pname ckey)
          u k2 t2 h
    · rw [if_neg h2]
      exact mem_bucketTasks_alAppendTask l "General" u k2 t2 h

lemma mem_hier_distributeTask_mono (pm : List ProjectFolder)
    (s : HierStructure) (u : Task) (c : TaskCategory) (k2 : String) (t2 : Task)
    (h : t2 ∈ hierBucketTasks s c k2) :
    t2 ∈ hierBucketTasks (distributeTask pm s u) c k2 := by
  simp only [distributeTask]
  cases hcu : u.category with
  | work =>
    cases c with
    | work => exact mem_distributeIntoList_mono _ _ _ _ _ _ h
    | personal => exact h
  | personal =>
    cases c with
    | work => exact h
    | personal => exact mem_distributeIntoList_mono _ _ _ _ _ _ h

lemma mem_hier_foldl_mono (pm : List ProjectFolder) (c : TaskCategory)
    (k2 : String) (t2 : Task) :
    ∀ (ts : List Task) (s : HierStructure), t2 ∈ hierBucketTasks s c k2 →
      t2 ∈ hierBucketTasks (ts.foldl (distributeTask pm) s) c k2 := by
  intro ts
  induction ts with
  | nil => intro s h; simpa using h
  | cons hd tl ih =>
    intro s h
    rw [List.foldl_cons]
    exact ih _ (mem_hier_distributeTask_mono _ _ _ _ _ _ h)

lemma mem_hier_distributeTask_self (pm : List ProjectFolder)
    (s : HierStructure) (t : Task) (pid : String) (p : ProjectFolder)
    (h1 : t.project_id = some pid) (h2 : pid.isEmpty = false)
    (hp : get_project pm pid = some p) :
    t ∈ hierBucketTasks (distributeTask pm s t) t.category p.name := by
  have htr : pyTruthy t.project_id = true := by
    rw [h1]
    simp [pyTruthy, h2]
  simp only [distributeTask]
  cases hcu : t.category with
  | work =>
    simp only [hierBucketTasks]
    rw [distributeIntoList, if_pos htr, h1]
    show t ∈ bucketTasks
      (match get_project pm pid with
       | some q => placeTask s.work q.name (projBucket q) t
       | none => alAppendTask s.work "General" t) p.name
    rw [hp]
    exact mem_bucketTasks_placeTask_self s.work p.name (projBucket p) t
  | personal =>
    simp only [hierBucketTasks]
    rw [distributeIntoList, if_pos htr, h1]
    show t ∈ bucketTasks
      (match get_project pm pid with
       | some q => placeTask s.personal q.name (projBucket q) t
       | none => alAppendTask s.personal "General" t) p.name
    rw [hp]
    exact mem_bucketTasks_placeTask_self s.personal p.name (projBucket p) t

lemma mem_hier_foldl_self (pm : List ProjectFolder) (t : Task) (pid : String)
    (p : ProjectFolder) (h1 : t.project_id = some pid)
    (h2 : pid.isEmpty = false) (hp : get_project pm pid = some p) :
    ∀ (ts : List Task) (s : HierStructure), t ∈ ts →
      t ∈ hierBucketTasks (ts.foldl (distributeTask pm) s) t.category p.name := by
  intro ts
  induction ts with
  | nil => intro s h; simp at h
  | cons hd tl ih =>
    intro s h
    rw [List.foldl_cons]
    rcases List.mem_cons.mp h with heq | hmem
    · subst heq
      exact mem_hier_foldl_mono pm _ _ _ tl _
        (mem_hier_distributeTask_self pm s t pid p h1 h2 hp)
    · exact ih _ hmem

/-- Claim C2 (amended): for a task whose (truthy) project_id resolves to
an existing project, get_hierarchical_tasks buckets the task under the
task's own category as the top-level key and the project's name as the
second-level key — the project's category field does not determine the
top-level placement. -/
theorem c2_task_category_is_top_key (pm : List ProjectFolder)
    (tasks : List Task) (t : Task) (pid : String) (p : ProjectFolder)
    (ht : t ∈ tasks) (h1 : t.project_id = some pid)
    (h2 : pid.isEmpty = false) (hp : get_project pm pid = some p) :
    t ∈ hierBucketTasks (get_hierarchical_tasks pm tasks) t.category p.name :=
  mem_hier_foldl_self pm t pid p h1 h2 hp tasks _ ht

/-- The Work-category project of the C2 scenario. -/
def c2proj : ProjectFolder :=
  { id := "p1", name := "Alpha", category := .work, description := none,
    created_at := 0 }

/-- The Personal-category task of the C2 scenario, referencing the Work
project by id (its legacy name backfilled by create_task, as the source
would have done). -/
def c2task : Task :=
  { id := "t1", title := "X", category := .personal,
    project_id := some "p1", project := some "Alpha",
    created_at := 0, updated_at := 0 }

/-- Claim C2 counterexample: the Personal task whose project_id resolves
to the Work project Alpha is NOT bucketed under the project's category
(work/Alpha is empty) but under the task's own category
(personal/Alpha). -/
theorem c2_counterexample :
    c2task ∉ hierBucketTasks (get_hierarchical_tasks [c2proj] [c2task])
      c2proj.category c2proj.name ∧
    c2task ∈ hierBucketTasks (get_hierarchical_tasks [c2proj] [c2task])
      c2task.category c2proj.name := by
  decide

/-- Witness for C2 (amended) at the concrete mismatching-category
scenario. -/
theorem c2_witness :
    c2task ∈ hierBucketTasks (get_hierarchical_tasks [c2proj] [c2task])
      c2task.category c2proj.name :=
  c2_task_category_is_top_key [c2proj] [c2task] c2task "p1" c2proj
    (by decide) (by decide) (by decide) (by decide)

end TM
